import Mathlib

/-!
Shallow embedding of the `repeat` tool (src/repeat.c): a process-supervision
loop that repeatedly invokes a user command, governed by a repeat count
(`-t`), an inter-invocation interval (`-i`), a fixed-cadence flag (`-p`),
stop-on-error/stop-on-success flags (`-e`/`-s`), and a direct-launch flag
(`-x`).

The embedding covers:
  * the overflow-safe `timespec` addition primitive (`timespec_add`),
  * the wait-status decoding macros used by the loop (`WEXITSTATUS`,
    `WIFSIGNALED`, `WTERMSIG`, as in glibc),
  * the stop-condition evaluation and repeat-count bookkeeping of `main`'s
    `while` loop, driven by a list of child wait statuses,
  * the deadline schedule of precise and non-precise mode,
  * the retry loops around `wait` and `clock_nanosleep`,
  * `parse_arguments`, including a model of glibc `getopt_long` restricted
    to the exact behaviours the program relies on (POSIXLY_CORRECT is set,
    so option scanning stops at the first non-option token; long-option
    abbreviation matching is not modelled, claims only use exact names),
    and lexical models of `strtol`/`strtof`.

Machine arithmetic: `tv_sec`/`tv_nsec` are C `long` values, embedded as
`Int`; the C `%` and `/` on signed integers truncate toward zero and are
embedded as `Int.tmod`/`Int.tdiv`; the `uint32_t` conversion inside
`timespec_add` is embedded as `% 4294967296` (values in the program stay
far below `2^63`, so wider-word overflow never occurs on the modelled
domain).  The C `float` used for interval magnitudes is modelled with
exact rational arithmetic (`ℚ`); no claim depends on binary-float
rounding of the interval value.
-/

namespace RepeatTool

/-- Constant `NS_IN_SEC = 1000000000` from repeat.c line 43. -/
def NS_IN_SEC : Int := 1000000000

/-- Embedding of `struct timespec`: seconds and nanoseconds, both C `long`. -/
@[ext]
structure Timespec where
  tv_sec : Int
  tv_nsec : Int
deriving DecidableEq, Repr

/-- Embedding of `timespec_add` (repeat.c lines 180-189):
`uint32_t nsecs = (a->tv_nsec % NS_IN_SEC) + (b->tv_nsec % NS_IN_SEC);`
then seconds are `a->tv_sec + b->tv_sec + a->tv_nsec/NS_IN_SEC +
b->tv_nsec/NS_IN_SEC + nsecs/NS_IN_SEC` and nanoseconds `nsecs % NS_IN_SEC`.
C `%`/`/` on `long` truncate toward zero (`Int.tmod`/`Int.tdiv`); the sum
is converted to `uint32_t` (`% 2^32`); the final `/` and `%` on `nsecs`
are unsigned, i.e. `Nat` operations. -/
def timespec_add (a b : Timespec) : Timespec :=
  let nsecs : Nat := ((Int.tmod a.tv_nsec NS_IN_SEC + Int.tmod b.tv_nsec NS_IN_SEC) % 4294967296).toNat
  { tv_sec := a.tv_sec + b.tv_sec + Int.tdiv a.tv_nsec NS_IN_SEC + Int.tdiv b.tv_nsec NS_IN_SEC
        + ((nsecs / 1000000000 : Nat) : Int)
    tv_nsec := ((nsecs % 1000000000 : Nat) : Int) }

/-- Total nanosecond count represented by a `Timespec`. -/
def Timespec.toNanos (t : Timespec) : Int := t.tv_sec * NS_IN_SEC + t.tv_nsec

/-- Signal number of SIGINT on Linux. -/
def SIGINT : Nat := 2

/-- Signal number of SIGQUIT on Linux. -/
def SIGQUIT : Nat := 3

/-- Errno value of EINTR on Linux. -/
def EINTR : Nat := 4

/-- glibc `WEXITSTATUS(status)`: `(status & 0xff00) >> 8`. -/
def WEXITSTATUS (s : Nat) : Nat := s / 256 % 256

/-- glibc `WTERMSIG(status)`: `status & 0x7f`. -/
def WTERMSIG (s : Nat) : Nat := s % 128

/-- glibc `WIFSIGNALED(status)`: true when the low seven bits are neither 0
(normal exit) nor 0x7f (stopped). -/
def WIFSIGNALED (s : Nat) : Bool := decide (s % 128 ≠ 0 ∧ s % 128 ≠ 127)

/-- Wait status of a child that exited normally with code `c` (0 ≤ c < 256):
the exit code is placed in the second byte. -/
def encodeExit (c : Nat) : Int := (c : Nat) * 256

/-- The two stop-condition flags read by the loop (globals `exit_on_error`,
`exit_on_success`, repeat.c lines 48-49). -/
structure LoopCfg where
  exit_on_error : Bool
  exit_on_success : Bool
deriving DecidableEq, Repr

/-- Identifies which `return` statement of `main`'s loop body fired. -/
inductive StopReason where
  | launchFail
  | onError
  | onSuccess
  | childSignaled
  | countExhausted
deriving DecidableEq, Repr

/-- Result of one evaluation of the loop's stop conditions: stop the whole
process with an exit code, or continue with an updated remaining count. -/
inductive StepRes where
  | stop (reason : StopReason) (code : Nat)
  | next (times : Int)
deriving DecidableEq, Repr

/-- Embedding of the stop-condition evaluation of `main`'s loop body
(repeat.c lines 247-268), applied to the wait status `ret` of one
invocation with `times` the current remaining-count global:
`if (ret < 0) return 1;` (launch failure), then
`if (WEXITSTATUS(ret) != 0 && exit_on_error) return WEXITSTATUS(ret);`,
`if (WEXITSTATUS(ret) == 0 && exit_on_success) return 0;`,
`if (WIFSIGNALED(ret) && (WTERMSIG(ret) == SIGINT || WTERMSIG(ret) == SIGQUIT)) return 0;`,
`if (times > 0) { times--; if (times == 0) return WEXITSTATUS(ret); }`. -/
def loop_step (cfg : LoopCfg) (times : Int) (ret : Int) : StepRes :=
  if ret < 0 then .stop .launchFail 1
  else
    let st := ret.toNat
    if WEXITSTATUS st ≠ 0 ∧ cfg.exit_on_error = true then .stop .onError (WEXITSTATUS st)
    else if WEXITSTATUS st = 0 ∧ cfg.exit_on_success = true then .stop .onSuccess 0
    else if WIFSIGNALED st = true ∧ (WTERMSIG st = SIGINT ∨ WTERMSIG st = SIGQUIT) then
      .stop .childSignaled 0
    else if 0 < times then
      if times - 1 = 0 then .stop .countExhausted (WEXITSTATUS st)
      else .next (times - 1)
    else .next times

/-- Driver of `main`'s `while (true)` loop over a list of child wait
statuses, one per invocation: `none` means the supplied statuses were
exhausted with the loop still running; `some (r, code)` means the process
stopped for reason `r` with exit code `code`. -/
def run_loop (cfg : LoopCfg) : Int → List Int → Option (StopReason × Nat)
  | _, [] => none
  | t, ret :: rest =>
    match loop_step cfg t ret with
    | .stop r c => some (r, c)
    | .next t2 => run_loop cfg t2 rest

/-- Deadline update of one loop iteration: in precise mode the new deadline
is `timespec_add(&next_exec, &interval_ts)` computed from the previous
deadline (repeat.c line 224); otherwise it is recomputed from a fresh
monotonic-clock sample as `now + interval` (repeat.c lines 273-278). -/
def sched_update (precise : Bool) (interval next_exec now : Timespec) : Timespec :=
  if precise then timespec_add next_exec interval else timespec_add now interval

/-- Sequence of target deadlines produced by the loop: `origin` is the
monotonic time captured once before the first run (repeat.c lines 212-218),
and `nows k` is the clock sample the k-th iteration would read in
non-precise mode (a stand-in for arbitrary per-invocation execution time). -/
def deadline_seq (precise : Bool) (interval origin : Timespec) (nows : Nat → Timespec) :
    Nat → Timespec
  | 0 => origin
  | k + 1 => sched_update precise interval (deadline_seq precise interval origin nows k) (nows k)

/-- One response of the environment to a `wait(&ret)` call (repeat.c line
233): either a child's wait status, or failure with errno, recorded as
whether errno equals EINTR. -/
inductive WaitCall where
  | ok (status : Int)
  | fail (is_eintr : Bool)
deriving DecidableEq, Repr

/-- Outcome of the wait-retry loop: a decoded status, or the fatal path
(diagnostic to stderr and `exit(1)`). -/
inductive WaitOut where
  | got (status : Int)
  | fatal
deriving DecidableEq, Repr

/-- Embedding of the retry loop around `wait` (repeat.c lines 232-242):
on failure with `errno == EINTR` the call is retried; on failure with any
other errno the process prints a diagnostic and exits 1; otherwise the
status is returned. `none` means the environment list was exhausted with
the loop still blocked. -/
def wait_retry : List WaitCall → Option WaitOut
  | [] => none
  | .ok st :: _ => some (.got st)
  | .fail true :: rest => wait_retry rest
  | .fail false :: _ => some .fatal

/-- Embedding of the sleep loop (repeat.c lines 281-283):
`do { err = clock_nanosleep(CLOCK_MONOTONIC, TIMER_ABSTIME, &next_exec, NULL); }
while (err != 0);` — each list element is one call's return value; the loop
exits only when a call returns 0, and retries on every nonzero return. -/
def sleep_retry : List Nat → Option Unit
  | [] => none
  | 0 :: _ => some ()
  | (_ + 1) :: _rest => sleep_retry _rest

/-- Messages the program can print, identified by their source. -/
inductive Msg where
  | usage
  | usageRaw
  | badUnit
  | getoptErr
  | versionText
  | helpText
  | debugMsg
  | cantHappen
deriving DecidableEq, Repr

/-- Result carried by `parse_arguments` when it asks the process to exit
immediately: the value stored into `*return_val`, the messages printed to
stderr, and the messages printed to stdout. -/
structure ExitInfo where
  rv : Nat
  errs : List Msg
  outs : List Msg
deriving DecidableEq, Repr

/-- The mutable globals written by `parse_arguments`
(repeat.c lines 45-53). -/
structure St where
  times : Int
  interval_ts : Timespec
  precise : Bool
  exit_on_error : Bool
  exit_on_success : Bool
  use_exec : Bool
  debug : Bool
  out : List Msg
deriving DecidableEq, Repr

/-- Initial values of the globals (repeat.c lines 45-53). -/
def initSt : St :=
  { times := 0, interval_ts := ⟨0, 0⟩, precise := false, exit_on_error := false
    exit_on_success := false, use_exec := false, debug := false, out := [] }

/-- C `isspace` in the default locale: space and the characters 9-13. -/
def isSpaceC (c : Char) : Bool :=
  c == ' ' || c.toNat == 9 || c.toNat == 10 || c.toNat == 11 || c.toNat == 12 || c.toNat == 13

/-- Numeric value of a string of decimal digits. -/
def digitsToNat (ds : List Char) : Nat :=
  ds.foldl (fun a c => a * 10 + (c.toNat - 48)) 0

/-- Optional leading sign of a C number: consumed sign and remainder. -/
def signSplit : List Char → Int × List Char
  | '-' :: t => (-1, t)
  | '+' :: t => (1, t)
  | cs => (1, cs)

/-- Lexical model of `strtol(s, &endp, 10)`: skip whitespace, optional
sign, then decimal digits.  Returns `none` when no digits were consumed
(then `endp == s`), else the value and the unconsumed remainder.
The ERANGE clamp to LONG_MIN/LONG_MAX is not modelled (claims only use
small values). -/
def strtol10 (cs : List Char) : Option (Int × List Char) :=
  let p := signSplit (cs.dropWhile (fun c => isSpaceC c))
  let ds := p.2.takeWhile (fun c => c.isDigit)
  if ds.isEmpty then none
  else some (p.1 * digitsToNat ds, p.2.dropWhile (fun c => c.isDigit))

/-- Fractional part of a C float literal: on `'.' :: t` the fraction digits
and the remainder, else no fraction. -/
def fracSplit : List Char → List Char × List Char
  | '.' :: t => (t.takeWhile (fun c => c.isDigit), t.dropWhile (fun c => c.isDigit))
  | cs => ([], cs)

/-- Exponent part of a C float literal: `e`/`E`, optional sign, digits;
consumed only when at least one exponent digit is present (as `strtof`
backtracks otherwise).  Returns the exponent and the remainder. -/
def expSplit (cs : List Char) : Int × List Char :=
  match cs with
  | c :: t =>
    if c == 'e' || c == 'E' then
      let p := signSplit t
      let ds := p.2.takeWhile (fun d => d.isDigit)
      if ds.isEmpty then (0, cs)
      else (p.1 * digitsToNat ds, p.2.dropWhile (fun d => d.isDigit))
    else (0, cs)
  | [] => (0, cs)

/-- Lexical and numerical model of `strtof(s, &endp)` over `ℚ` in place of
the C `float` (binary-float rounding is not modelled; no claim depends on
the interval's numeric value): whitespace, optional sign, digits with an
optional fraction, optional exponent.  Returns `none` when no digit of the
mantissa was consumed (then `endp == s`).  The hex, `inf` and `nan` forms
accepted by `strtof` are not modelled (no claim uses them). -/
def strtofQ (cs : List Char) : Option (ℚ × List Char) :=
  let p := signSplit (cs.dropWhile (fun c => isSpaceC c))
  let ip := p.2.takeWhile (fun c => c.isDigit)
  let cs2 := p.2.dropWhile (fun c => c.isDigit)
  let fr := fracSplit cs2
  if ip.isEmpty && fr.1.isEmpty then none
  else
    let mant : ℚ := (p.1 : ℚ) * ((digitsToNat ip : ℚ) + (digitsToNat fr.1 : ℚ) / (10 : ℚ) ^ fr.1.length)
    let ex := expSplit fr.2
    let q : ℚ := if 0 ≤ ex.1 then mant * (10 : ℚ) ^ ex.1.toNat else mant / (10 : ℚ) ^ (-ex.1).toNat
    some (q, ex.2)

/-- C truncation of a real value to an integer (`(int)x`, rounding toward
zero). -/
def ratTrunc (q : ℚ) : Int := if 0 ≤ q then ⌊q⌋ else ⌈q⌉

/-- Conversion of the scaled interval magnitude into `interval_ts`
(repeat.c lines 118-119): `tv_sec = (int)interval;`
`tv_nsec = (interval - (int)interval) * NS_IN_SEC;` (both conversions
truncate toward zero). -/
def ts_of_rat (q : ℚ) : Timespec :=
  { tv_sec := ratTrunc q
    tv_nsec := ratTrunc ((q - (ratTrunc q : ℚ)) * 1000000000) }

/-- Unit-suffix handling for `-i` (repeat.c lines 102-117): empty remainder
keeps the magnitude in seconds; otherwise the first leftover character must
be `d`, `h`, `m` or `s` (scaling by 86400, 3600, 60, 1); anything else is
the "Bad unit" error (`none`). -/
def scale_unit (q : ℚ) (rest : List Char) : Option ℚ :=
  match rest with
  | [] => some q
  | c :: _ =>
    if c == 'd' then some (q * 86400)
    else if c == 'h' then some (q * 3600)
    else if c == 'm' then some (q * 60)
    else if c == 's' then some q
    else none

/-- Handling of option character `t` (repeat.c lines 84-91): `strtol` the
argument; when nothing was consumed, print usage to stderr and exit 1;
otherwise store the value into `times` (the unconsumed remainder is
ignored). -/
def opt_times (st : St) (arg : String) : Sum ExitInfo St :=
  match strtol10 arg.data with
  | none => Sum.inl ⟨1, [.usage], st.out⟩
  | some (v, _) => Sum.inr { st with times := v }

/-- Handling of option character `i` (repeat.c lines 95-120): `strtof` the
argument (usage + exit 1 when nothing consumed), apply the unit suffix
("Bad unit" + exit 1 on an unrecognized one), store `interval_ts`. -/
def opt_interval (st : St) (arg : String) : Sum ExitInfo St :=
  match strtofQ arg.data with
  | none => Sum.inl ⟨1, [.usage], st.out⟩
  | some (q, rest) =>
    match scale_unit q rest with
    | none => Sum.inl ⟨1, [.badUnit], st.out⟩
    | some q2 => Sum.inr { st with interval_ts := ts_of_rat q2 }

/-- Dispatch of one recognized option character through the `switch` of
`parse_arguments` (repeat.c lines 81-143), for the no-argument options.
`z` is accepted by the optstring `"t:i:ezdhpVx"` but has no `case`, so it
hits the `default:` arm ("Can't happen", `*return_val = 1`, exit). -/
def opt_flag (st : St) (c : Char) : Sum ExitInfo St :=
  if c == 'p' then Sum.inr { st with precise := true }
  else if c == 'e' then Sum.inr { st with exit_on_error := true }
  else if c == 's' then Sum.inr { st with exit_on_success := true }
  else if c == 'x' then Sum.inr { st with use_exec := true }
  else if c == 'd' then Sum.inr { st with debug := true, out := st.out ++ [.debugMsg] }
  else if c == 'V' then Sum.inl ⟨0, [], st.out ++ [.versionText]⟩
  else if c == 'h' then Sum.inl ⟨0, [], st.out ++ [.helpText]⟩
  else Sum.inl ⟨1, [.cantHappen], st.out⟩

/-- Model of glibc `getopt` processing of one short-option cluster (a token
`-c₁c₂…` with the leading dash stripped), with `nextTok` the following argv
token.  The optstring is `"t:i:ezdhpVx"`: `t` and `i` take a required
argument (rest of the cluster when nonempty, else the next token; when
neither exists getopt prints its own diagnostic and yields `'?'`, which
`parse_arguments` maps to `return 1;` — i.e. exit-now with `*return_val`
still 0).  Note `s` is NOT in the optstring, so a short `-s` is an
unrecognized option.  The returned Bool records whether the next argv token
was consumed as an option argument. -/
def proc_cluster (st : St) (nextTok : Option String) : List Char → Sum ExitInfo (St × Bool)
  | [] => Sum.inr (st, false)
  | c :: cs =>
    if c == 't' || c == 'i' then
      match (if cs.isEmpty then nextTok else some (String.mk cs)) with
      | none => Sum.inl ⟨0, [.getoptErr], st.out⟩
      | some arg =>
        match (if c == 't' then opt_times st arg else opt_interval st arg) with
        | Sum.inl e => Sum.inl e
        | Sum.inr st2 => Sum.inr (st2, cs.isEmpty)
    else if c == 'p' || c == 'e' || c == 'x' || c == 'd' then
      match opt_flag st c with
      | Sum.inl e => Sum.inl e
      | Sum.inr st2 => proc_cluster st2 nextTok cs
    else if c == 'z' || c == 'V' || c == 'h' then
      match opt_flag st c with
      | Sum.inl e => Sum.inl e
      | Sum.inr st2 => proc_cluster st2 nextTok cs
    else Sum.inl ⟨0, [.getoptErr], st.out⟩

/-- Model of glibc `getopt_long` processing of one long option (a token
`--name` or `--name=value` with the dashes stripped), with `nextTok` the
following argv token.  The option table (repeat.c lines 57-67) is
`times`/`interval` (required argument) and `precise`, `untilerr`,
`untilsuccess`, `noshell`, `version`, `help` (no argument).  An unknown
name, a missing required argument, or an inline argument given to a
no-argument option makes getopt print its own diagnostic and yield `'?'`
(mapped to exit-now with `*return_val` 0).  Abbreviated (unambiguous
prefix) names accepted by glibc are not modelled.  The returned Bool
records whether the next argv token was consumed as an option argument. -/
def proc_long (st : St) (nextTok : Option String) (cs : List Char) : Sum ExitInfo (St × Bool) :=
  let nameCs := cs.takeWhile (fun c => c ≠ '=')
  let eqRest := cs.dropWhile (fun c => c ≠ '=')
  let name := String.mk nameCs
  let inlineArg : Option String := if eqRest.isEmpty then none else some (String.mk (eqRest.drop 1))
  if name == "times" || name == "interval" then
    match inlineArg with
    | some a =>
      match (if name == "times" then opt_times st a else opt_interval st a) with
      | Sum.inl e => Sum.inl e
      | Sum.inr st2 => Sum.inr (st2, false)
    | none =>
      match nextTok with
      | none => Sum.inl ⟨0, [.getoptErr], st.out⟩
      | some a =>
        match (if name == "times" then opt_times st a else opt_interval st a) with
        | Sum.inl e => Sum.inl e
        | Sum.inr st2 => Sum.inr (st2, true)
  else if !inlineArg.isNone then Sum.inl ⟨0, [.getoptErr], st.out⟩
  else if name == "precise" then Sum.inr ({ st with precise := true }, false)
  else if name == "untilerr" then Sum.inr ({ st with exit_on_error := true }, false)
  else if name == "untilsuccess" then Sum.inr ({ st with exit_on_success := true }, false)
  else if name == "noshell" then Sum.inr ({ st with use_exec := true }, false)
  else if name == "version" then Sum.inl ⟨0, [], st.out ++ [.versionText]⟩
  else if name == "help" then Sum.inl ⟨0, [], st.out ++ [.helpText]⟩
  else Sum.inl ⟨0, [.getoptErr], st.out⟩

/-- Model of the `getopt_long` scanning loop of `parse_arguments`
(repeat.c line 80) over the argv tokens after the program name.
POSIXLY_CORRECT is set (repeat.c line 79), so scanning stops at the first
non-option token (including a bare `-`); `--` ends option scanning and is
itself consumed.  On success returns the final globals and the trailing
tokens (the command and its arguments). -/
def gopt_loop (st : St) : List String → Sum ExitInfo (St × List String)
  | [] => Sum.inr (st, [])
  | s :: rest =>
    match s.data with
    | '-' :: '-' :: [] => Sum.inr (st, rest)
    | '-' :: '-' :: c :: cs =>
      match proc_long st rest.head? (c :: cs) with
      | Sum.inl e => Sum.inl e
      | Sum.inr (st2, false) => gopt_loop st2 rest
      | Sum.inr (st2, true) =>
        match rest with
        | [] => Sum.inr (st2, [])
        | _ :: rest2 => gopt_loop st2 rest2
    | '-' :: c :: cs =>
      match proc_cluster st rest.head? (c :: cs) with
      | Sum.inl e => Sum.inl e
      | Sum.inr (st2, false) => gopt_loop st2 rest
      | Sum.inr (st2, true) =>
        match rest with
        | [] => Sum.inr (st2, [])
        | _ :: rest2 => gopt_loop st2 rest2
    | _ => Sum.inr (st, s :: rest)

/-- Embedding of the shell-command construction (repeat.c lines 154-174):
the first trailing token, then for each further token a single `' '`
followed by the token, appended in order into one buffer. -/
def join_command : List String → String
  | [] => ""
  | a :: rest => rest.foldl (fun acc s => acc ++ " " ++ s) a

/-- Result of `parse_arguments`: exit immediately (with `*return_val`,
stderr messages, stdout messages), or run with the final globals, the
shell command string (present exactly when `use_exec` is false), and the
trailing command tokens `argv[optind..]`. -/
inductive ParseResult where
  | exitNow (return_val : Nat) (stderr_msgs : List Msg) (stdout_msgs : List Msg)
  | run (cfg : St) (command : Option String) (cmd_args : List String)
deriving DecidableEq, Repr

/-- Post-processing of `parse_arguments` after the option loop
(repeat.c lines 146-176): zero trailing tokens prints the usage text (via
`"%s\n"`, i.e. unexpanded) to stderr and exits 1; otherwise in shell mode
the trailing tokens are joined into `command`. -/
def finish_parse : Sum ExitInfo (St × List String) → ParseResult
  | Sum.inl e => .exitNow e.rv e.errs e.outs
  | Sum.inr (st, args) =>
    match args with
    | [] => .exitNow 1 [.usageRaw] st.out
    | a :: rest =>
      .run st (if st.use_exec then none else some (join_command (a :: rest))) (a :: rest)

/-- Embedding of `parse_arguments` (repeat.c lines 55-177) applied to the
argv tokens after the program name. -/
def parse_arguments (argv : List String) : ParseResult :=
  finish_parse (gopt_loop initSt argv)

/-- Modelled from the spec: "the resolver joins all trailing tokens with
single ASCII spaces into one string; no escaping or quoting is applied".
Used as the specification-side join to compare with `join_command`. -/
def spec_joined : List String → String
  | [] => ""
  | [a] => a
  | a :: rest => a ++ " " ++ spec_joined rest

end RepeatTool

namespace RepeatTool

/-- Characterization of `timespec_add` on operands whose nanosecond fields
are normalized to `[0, 1e9)`: the truncating operations and the `uint32_t`
conversion are the identity there, leaving plain carry arithmetic. -/
theorem timespec_add_norm (a b : Timespec)
    (ha1 : 0 ≤ a.tv_nsec) (ha2 : a.tv_nsec < 1000000000)
    (hb1 : 0 ≤ b.tv_nsec) (hb2 : b.tv_nsec < 1000000000) :
    timespec_add a b =
      ⟨a.tv_sec + b.tv_sec + (a.tv_nsec + b.tv_nsec) / 1000000000,
       (a.tv_nsec + b.tv_nsec) % 1000000000⟩ := by
  have hN : (0 : Int) ≤ NS_IN_SEC := by unfold NS_IN_SEC; omega
  unfold timespec_add
  rw [Int.tmod_eq_emod ha1 hN, Int.tmod_eq_emod hb1 hN,
      Int.tdiv_eq_ediv ha1 hN, Int.tdiv_eq_ediv hb1 hN]
  unfold NS_IN_SEC
  refine Timespec.ext ?_ ?_ <;> dsimp only <;> omega

/-- Additivity of the represented nanosecond total, with normalization of
the result, on normalized operands. -/
theorem timespec_add_nanos (a b : Timespec)
    (ha1 : 0 ≤ a.tv_nsec) (ha2 : a.tv_nsec < 1000000000)
    (hb1 : 0 ≤ b.tv_nsec) (hb2 : b.tv_nsec < 1000000000) :
    (timespec_add a b).toNanos = a.toNanos + b.toNanos
    ∧ 0 ≤ (timespec_add a b).tv_nsec ∧ (timespec_add a b).tv_nsec < 1000000000 := by
  rw [timespec_add_norm a b ha1 ha2 hb1 hb2]
  unfold Timespec.toNanos NS_IN_SEC
  dsimp only
  omega

/-- C3: on timespec values with non-negative components and nanosecond
fields below 1e9, `timespec_add` carries exactly one second into the
seconds component when the nanosecond sum reaches 1e9 (and none
otherwise), leaves the nanosecond remainder in `[0, 1e9)`, preserves the
total number of nanoseconds, and is associative (so repeated additions
accumulate no drift). -/
theorem c3_timespec_add_carry_total_assoc (a b c : Timespec)
    (ha0 : 0 ≤ a.tv_sec) (hb0 : 0 ≤ b.tv_sec) (hc0 : 0 ≤ c.tv_sec)
    (ha1 : 0 ≤ a.tv_nsec) (ha2 : a.tv_nsec < 1000000000)
    (hb1 : 0 ≤ b.tv_nsec) (hb2 : b.tv_nsec < 1000000000)
    (hc1 : 0 ≤ c.tv_nsec) (hc2 : c.tv_nsec < 1000000000) :
    (timespec_add a b).tv_sec
        = a.tv_sec + b.tv_sec + (if 1000000000 ≤ a.tv_nsec + b.tv_nsec then 1 else 0)
    ∧ 0 ≤ (timespec_add a b).tv_nsec ∧ (timespec_add a b).tv_nsec < 1000000000
    ∧ (timespec_add a b).toNanos = a.toNanos + b.toNanos
    ∧ timespec_add (timespec_add a b) c = timespec_add a (timespec_add b c) := by
  have hab := timespec_add_norm a b ha1 ha2 hb1 hb2
  have hbc := timespec_add_norm b c hb1 hb2 hc1 hc2
  refine ⟨?_, ?_, ?_, ?_, ?_⟩
  · rw [hab]; dsimp only; split <;> omega
  · rw [hab]; dsimp only; omega
  · rw [hab]; dsimp only; omega
  · rw [hab]; unfold Timespec.toNanos NS_IN_SEC; dsimp only; omega
  · rw [hab, hbc,
        timespec_add_norm _ c (by dsimp only; omega) (by dsimp only; omega) hc1 hc2,
        timespec_add_norm a _ ha1 ha2 (by dsimp only; omega) (by dsimp only; omega)]
    refine Timespec.ext ?_ ?_ <;> dsimp only <;> omega

/-- Witness for `c3_timespec_add_carry_total_assoc` at concrete inputs. -/
theorem c3_timespec_add_carry_total_assoc_witness :
    (timespec_add ⟨1, 999999999⟩ ⟨2, 2⟩).tv_sec
        = 1 + 2 + (if (1000000000 : Int) ≤ 999999999 + 2 then 1 else 0)
    ∧ 0 ≤ (timespec_add ⟨1, 999999999⟩ ⟨2, 2⟩).tv_nsec
    ∧ (timespec_add ⟨1, 999999999⟩ ⟨2, 2⟩).tv_nsec < 1000000000
    ∧ (timespec_add ⟨1, 999999999⟩ ⟨2, 2⟩).toNanos
        = Timespec.toNanos ⟨1, 999999999⟩ + Timespec.toNanos ⟨2, 2⟩
    ∧ timespec_add (timespec_add ⟨1, 999999999⟩ ⟨2, 2⟩) ⟨0, 700000001⟩
        = timespec_add ⟨1, 999999999⟩ (timespec_add ⟨2, 2⟩ ⟨0, 700000001⟩) :=
  c3_timespec_add_carry_total_assoc ⟨1, 999999999⟩ ⟨2, 2⟩ ⟨0, 700000001⟩
    (by decide) (by decide) (by decide) (by decide) (by decide)
    (by decide) (by decide) (by decide) (by decide)

end RepeatTool

namespace RepeatTool

/-- Inductive core for precise-mode deadlines: total nanoseconds grow by
exactly one interval per iteration and the nanosecond field stays
normalized. -/
theorem deadline_seq_precise_aux (interval origin : Timespec) (nows : Nat → Timespec)
    (ho1 : 0 ≤ origin.tv_nsec) (ho2 : origin.tv_nsec < 1000000000)
    (hi1 : 0 ≤ interval.tv_nsec) (hi2 : interval.tv_nsec < 1000000000) (k : Nat) :
    (deadline_seq true interval origin nows k).toNanos
        = origin.toNanos + k * interval.toNanos
    ∧ 0 ≤ (deadline_seq true interval origin nows k).tv_nsec
    ∧ (deadline_seq true interval origin nows k).tv_nsec < 1000000000 := by
  induction k with
  | zero =>
    refine ⟨?_, ho1, ho2⟩
    simp [deadline_seq]
  | succ n ih =>
    have h := timespec_add_nanos (deadline_seq true interval origin nows n) interval
      ih.2.1 ih.2.2 hi1 hi2
    have hd : deadline_seq true interval origin nows (n + 1)
        = timespec_add (deadline_seq true interval origin nows n) interval := by
      simp [deadline_seq, sched_update]
    refine ⟨?_, ?_, ?_⟩
    · rw [hd, h.1, ih.1]; push_cast; ring
    · rw [hd]; exact h.2.1
    · rw [hd]; exact h.2.2

/-- Independence of the precise-mode deadline sequence from the clock
samples taken during the loop (the stand-in for per-invocation execution
time): in precise mode `next_exec` is only ever advanced from its previous
value, never recomputed from `now`. -/
theorem deadline_seq_precise_nows_irrel (interval origin : Timespec)
    (nows nows2 : Nat → Timespec) (k : Nat) :
    deadline_seq true interval origin nows k = deadline_seq true interval origin nows2 k := by
  induction k with
  | zero => rfl
  | succ n ih => simp [deadline_seq, sched_update, ih]

/-- C2: in precise mode, with the origin captured once before the first run
and successive deadlines computed as `previous_deadline + interval`
(never `now + interval`), the k-th target deadline equals
`origin + k * interval` in total nanoseconds for every k ≥ 1, for every
choice of per-iteration clock samples (i.e. regardless of per-invocation
execution time), assuming origin and interval are normalized. -/
theorem c2_precise_drift_free (interval origin : Timespec) (nows nows2 : Nat → Timespec)
    (k : Nat) (hk : 1 ≤ k)
    (ho1 : 0 ≤ origin.tv_nsec) (ho2 : origin.tv_nsec < 1000000000)
    (hi1 : 0 ≤ interval.tv_nsec) (hi2 : interval.tv_nsec < 1000000000) :
    (deadline_seq true interval origin nows k).toNanos
        = origin.toNanos + k * interval.toNanos
    ∧ deadline_seq true interval origin nows k = deadline_seq true interval origin nows2 k :=
  ⟨(deadline_seq_precise_aux interval origin nows ho1 ho2 hi1 hi2 k).1,
   deadline_seq_precise_nows_irrel interval origin nows nows2 k⟩

/-- Witness for `c2_precise_drift_free`: three deadlines at interval
1.5e9 ns from origin 0.999999999 s, with two different clock-sample
streams. -/
theorem c2_precise_drift_free_witness :
    (deadline_seq true ⟨1, 500000000⟩ ⟨0, 999999999⟩ (fun _ => ⟨5, 5⟩) 3).toNanos
        = Timespec.toNanos ⟨0, 999999999⟩ + 3 * Timespec.toNanos ⟨1, 500000000⟩
    ∧ deadline_seq true ⟨1, 500000000⟩ ⟨0, 999999999⟩ (fun _ => ⟨5, 5⟩) 3
        = deadline_seq true ⟨1, 500000000⟩ ⟨0, 999999999⟩ (fun _ => ⟨7, 0⟩) 3 := by
  have h := c2_precise_drift_free ⟨1, 500000000⟩ ⟨0, 999999999⟩
    (fun _ => ⟨5, 5⟩) (fun _ => ⟨7, 0⟩) 3 (by decide) (by decide) (by decide) (by decide) (by decide)
  exact_mod_cast h

end RepeatTool

namespace RepeatTool

/-- Evaluation of one stop-condition check on a normally-exited child with
code `c < 256`, under cleared stop flags: only the repeat-count branch can
act. -/
theorem loop_step_normal (t : Int) (c : Nat) (hc : c < 256) :
    loop_step ⟨false, false⟩ t (encodeExit c)
      = if 0 < t then (if t - 1 = 0 then .stop .countExhausted c else .next (t - 1))
        else .next t := by
  have h0 : ¬ (encodeExit c < 0) := by unfold encodeExit; omega
  have hst : (encodeExit c).toNat = c * 256 := by unfold encodeExit; omega
  have hw : WEXITSTATUS (c * 256) = c := by unfold WEXITSTATUS; omega
  have hsg : WIFSIGNALED (c * 256) = false := by
    simp only [WIFSIGNALED, decide_eq_false_iff_not]
    omega
  simp only [loop_step, if_neg h0, hst, hw, hsg]
  simp

/-- With repeat count `pre.length + 1` and cleared stop flags, a run whose
children all exit normally consumes every status and stops at the last one,
propagating its exit code. -/
theorem run_loop_normal_all (pre : List Nat) (c : Nat)
    (hpre : ∀ x ∈ pre, x < 256) (hc : c < 256) :
    run_loop ⟨false, false⟩ ((pre.length : Int) + 1) ((pre ++ [c]).map encodeExit)
      = some (.countExhausted, c) := by
  induction pre with
  | nil =>
    simp only [List.length_nil, List.nil_append, List.map_cons, List.map_nil, run_loop,
      Nat.cast_zero, zero_add]
    rw [loop_step_normal 1 c hc]
    norm_num
  | cons p ps ih =>
    have hp : p < 256 := hpre p (by simp)
    simp only [List.length_cons, List.cons_append, List.map_cons, run_loop]
    rw [loop_step_normal _ p hp]
    have h1 : (0 : Int) < ((ps.length + 1 : Nat) : Int) + 1 := by push_cast; omega
    have h2 : ¬ (((ps.length + 1 : Nat) : Int) + 1 - 1 = 0) := by push_cast; omega
    rw [if_pos h1, if_neg h2]
    have h3 : ((ps.length + 1 : Nat) : Int) + 1 - 1 = ((ps.length : Nat) : Int) + 1 := by
      push_cast; ring
    rw [h3]
    exact ih (fun x hx => hpre x (by simp [hx]))

/-- With cleared stop flags, normal exits, and strictly more remaining
count than statuses, the loop never stops. -/
theorem run_loop_normal_none (l : List Nat) (t : Int)
    (hl : ∀ x ∈ l, x < 256) (ht : (l.length : Int) < t) :
    run_loop ⟨false, false⟩ t (l.map encodeExit) = none := by
  induction l generalizing t with
  | nil => rfl
  | cons p ps ih =>
    have hp : p < 256 := hl p (by simp)
    simp only [List.length_cons] at ht
    push_cast at ht
    simp only [List.map_cons, run_loop]
    rw [loop_step_normal t p hp]
    rw [if_pos (by omega), if_neg (by omega)]
    exact ih (t - 1) (fun x hx => hl x (List.mem_cons_of_mem p hx)) (by omega)

/-- C1: for every repeat count N = pre.length + 1 ≥ 1 set by the times
option, with stop-on-error and stop-on-success unset and every invocation
exiting normally, the loop needs exactly N child statuses — on any proper
prefix it is still running — and stops at the N-th with that invocation's
exit code as the process exit code. -/
theorem c1_times_runs_exactly_n (pre : List Nat) (c : Nat)
    (hpre : ∀ x ∈ pre, x < 256) (hc : c < 256) :
    run_loop ⟨false, false⟩ ((pre.length : Int) + 1) ((pre ++ [c]).map encodeExit)
        = some (.countExhausted, c)
    ∧ ∀ k ≤ pre.length,
        run_loop ⟨false, false⟩ ((pre.length : Int) + 1) (((pre ++ [c]).take k).map encodeExit)
          = none := by
  refine ⟨run_loop_normal_all pre c hpre hc, ?_⟩
  intro k hk
  have htake : (pre ++ [c]).take k = pre.take k := by
    rw [List.take_append_eq_append_take, Nat.sub_eq_zero_of_le hk]
    simp
  rw [htake]
  refine run_loop_normal_none _ _ (fun x hx => hpre x (List.take_subset _ _ hx)) ?_
  rw [List.length_take]
  have : min k pre.length = k := by omega
  rw [this]
  omega

/-- Witness for `c1_times_runs_exactly_n`: N = 2, exit codes 7 then 5. -/
theorem c1_times_runs_exactly_n_witness :
    run_loop ⟨false, false⟩ 2 [encodeExit 7, encodeExit 5] = some (.countExhausted, 5)
    ∧ run_loop ⟨false, false⟩ 2 [encodeExit 7] = none := by
  have h := c1_times_runs_exactly_n [7] 5 (by decide) (by decide)
  refine ⟨?_, ?_⟩
  · have h1 := h.1
    norm_num at h1 ⊢
    exact h1
  · have h2 := h.2 1 (by decide)
    norm_num at h2 ⊢
    exact h2

end RepeatTool

namespace RepeatTool

/-- When the remaining count is not positive, a step either stops for a
reason other than count exhaustion or continues with the count unchanged;
relative to count 0 only the carried count differs. -/
theorem loop_step_nonpos (cfg : LoopCfg) (t : Int) (ht : ¬ 0 < t) (ret : Int) :
    loop_step cfg t ret
      = match loop_step cfg 0 ret with
        | .next _ => .next t
        | r => r := by
  unfold loop_step
  by_cases h1 : ret < 0
  · simp [h1]
  · simp only [if_neg h1]
    by_cases h2 : WEXITSTATUS ret.toNat ≠ 0 ∧ cfg.exit_on_error = true
    · simp [h2]
    · simp only [if_neg h2]
      by_cases h3 : WEXITSTATUS ret.toNat = 0 ∧ cfg.exit_on_success = true
      · simp [h3]
      · simp only [if_neg h3]
        by_cases h4 : WIFSIGNALED ret.toNat = true
            ∧ (WTERMSIG ret.toNat = SIGINT ∨ WTERMSIG ret.toNat = SIGQUIT)
        · simp [h4]
        · simp [if_neg h4, if_neg ht, if_neg (by omega : ¬ (0 : Int) < 0)]

/-- A step taken from a non-positive count that continues carries the count
unchanged. -/
theorem loop_step_nonpos_next (cfg : LoopCfg) (t : Int) (ht : ¬ 0 < t) (ret : Int) (t2 : Int)
    (h : loop_step cfg t ret = .next t2) : t2 = t := by
  rw [loop_step_nonpos cfg t ht ret] at h
  cases h2 : loop_step cfg 0 ret <;> rw [h2] at h <;> simp_all

/-- A step taken from a non-positive count never stops through the
repeat-count branch. -/
theorem loop_step_nonpos_no_count (cfg : LoopCfg) (t : Int) (ht : ¬ 0 < t) (ret : Int) (c : Nat) :
    loop_step cfg t ret ≠ .stop .countExhausted c := by
  unfold loop_step
  by_cases h1 : ret < 0
  · simp [h1]
  · simp only [if_neg h1]
    by_cases h2 : WEXITSTATUS ret.toNat ≠ 0 ∧ cfg.exit_on_error = true
    · simp [h2]
    · simp only [if_neg h2]
      by_cases h3 : WEXITSTATUS ret.toNat = 0 ∧ cfg.exit_on_success = true
      · simp [h3]
      · simp only [if_neg h3]
        by_cases h4 : WIFSIGNALED ret.toNat = true
            ∧ (WTERMSIG ret.toNat = SIGINT ∨ WTERMSIG ret.toNat = SIGQUIT)
        · simp [h4]
        · simp [if_neg h4, if_neg ht]

/-- The loop run from a non-positive count behaves exactly as from count
0. -/
theorem run_loop_nonpos (cfg : LoopCfg) (t : Int) (ht : t ≤ 0) (rets : List Int) :
    run_loop cfg t rets = run_loop cfg 0 rets := by
  induction rets with
  | nil => rfl
  | cons r rest ih =>
    simp only [run_loop]
    rw [loop_step_nonpos cfg t (by omega) r]
    cases h : loop_step cfg 0 r with
    | stop r2 c2 => simp
    | next t2 =>
      have h0 : t2 = 0 := loop_step_nonpos_next cfg 0 (by omega) r t2 h
      subst h0
      simpa using ih

/-- C10: a negative value accepted by the times option makes the loop
behave exactly as repeat count 0 (run forever): the run is
indistinguishable from count 0 on every status sequence, the
remaining-count counter is never decremented, and the repeat-count stop
condition never fires. -/
theorem c10_negative_times_like_zero (cfg : LoopCfg) (t : Int) (ht : t < 0) :
    (∀ rets, run_loop cfg t rets = run_loop cfg 0 rets)
    ∧ (∀ ret c, loop_step cfg t ret ≠ .stop .countExhausted c)
    ∧ (∀ ret t2, loop_step cfg t ret = .next t2 → t2 = t) :=
  ⟨fun rets => run_loop_nonpos cfg t (by omega) rets,
   fun ret c => loop_step_nonpos_no_count cfg t (by omega) ret c,
   fun ret t2 h => loop_step_nonpos_next cfg t (by omega) ret t2 h⟩

/-- Witness for `c10_negative_times_like_zero` at count -3 (as set by
`-t -3`). -/
theorem c10_negative_times_like_zero_witness :
    run_loop ⟨false, false⟩ (-3) [encodeExit 0] = run_loop ⟨false, false⟩ 0 [encodeExit 0]
    ∧ loop_step ⟨false, false⟩ (-3) (encodeExit 0) ≠ .stop .countExhausted 0
    ∧ (loop_step ⟨false, false⟩ (-3) (encodeExit 0) = .next (-3) → (-3 : Int) = -3) := by
  have h := c10_negative_times_like_zero ⟨false, false⟩ (-3) (by decide)
  exact ⟨h.1 [encodeExit 0], h.2.1 (encodeExit 0) 0, h.2.2 (encodeExit 0) (-3)⟩

/-- C4 evaluated at the failing input: stop-on-success set, infinite
repeat count, first child terminated by SIGKILL (wait status 9).  The
status is a signal termination (`WIFSIGNALED`, terminating signal 9, not
SIGINT/SIGQUIT) and carries no exit code, yet the loop stops immediately
with "success" status 0: repeat.c line 254 applies `WEXITSTATUS` to the
raw status without checking `WIFEXITED`, and the exit-code byte of a
signal status is 0. -/
theorem c4_stop_on_success_fires_on_signaled_child :
    WIFSIGNALED 9 = true ∧ WTERMSIG 9 = 9 ∧ 9 ≠ SIGINT ∧ 9 ≠ SIGQUIT
    ∧ run_loop ⟨false, true⟩ 0 [9] = some (.onSuccess, 0) := by decide

/-- Counterexample to C5's check-ordering clause: with stop-on-success set
and the child killed by SIGINT (wait status 2), the stop that fires is the
stop-on-success check of repeat.c line 254, not the interrupt/quit check
of line 258 — the interrupt/quit check is evaluated after the stop-on-error
and stop-on-success checks, not before. -/
theorem c5_interrupt_check_not_first_counterexample :
    WIFSIGNALED 2 = true ∧ WTERMSIG 2 = SIGINT
    ∧ run_loop ⟨false, true⟩ 5 [2] = some (.onSuccess, 0)
    ∧ StopReason.onSuccess ≠ StopReason.childSignaled := by decide

/-- C5 as amended: whenever the child is terminated by SIGINT or SIGQUIT
(a well-formed signal wait status, below 256), the supervising process
exits immediately with status 0, for every flag combination and remaining
count — even though the interrupt/quit check is evaluated last, because
the exit-code byte of a signal status is 0, so the stop-on-error check
cannot fire and the stop-on-success check (when it fires) also returns
status 0. -/
theorem c5_interrupted_child_exits_zero (eoe eos : Bool) (t : Int) (s : Nat) (rest : List Int)
    (hs : s < 256) (hsig : WIFSIGNALED s = true)
    (hterm : WTERMSIG s = SIGINT ∨ WTERMSIG s = SIGQUIT) :
    ∃ r, run_loop ⟨eoe, eos⟩ t (((s : Nat) : Int) :: rest) = some (r, 0) := by
  have h0 : ¬ (((s : Nat) : Int) < 0) := by omega
  have hst : ((s : Nat) : Int).toNat = s := by omega
  have hw : WEXITSTATUS s = 0 := by unfold WEXITSTATUS; omega
  simp only [run_loop, loop_step, if_neg h0, hst, hw]
  cases eos with
  | true =>
    refine ⟨.onSuccess, ?_⟩
    simp
  | false =>
    refine ⟨.childSignaled, ?_⟩
    simp [hsig, hterm]

/-- Witness for `c5_interrupted_child_exits_zero`: no flags, count 5
remaining, child killed by SIGINT. -/
theorem c5_interrupted_child_exits_zero_witness :
    ∃ r, run_loop ⟨false, false⟩ 5 [((2 : Nat) : Int)] = some (r, 0) :=
  c5_interrupted_child_exits_zero false false 5 2 [] (by decide) (by decide) (by decide)

end RepeatTool

namespace RepeatTool

/-- Counterexample to C9's sleep clause: a `clock_nanosleep` call failing
with EINVAL (22) — a failure other than interruption — is retried by the
`do ... while (err != 0)` loop of repeat.c lines 281-283 and the sleep then
completes normally on the next call; there is no fatal exit, no diagnostic,
and the failing call IS retried. -/
theorem c9_sleep_failure_retried_counterexample :
    sleep_retry [22, 0] = some () ∧ 22 ≠ EINTR := by decide

/-- C9 as amended: during the blocking wait on the child, an interruption
(errno EINTR) is transparently retried until a status arrives, and any
other wait failure is immediately fatal (diagnostic and exit status 1)
without looking at later responses; during the absolute-time sleep,
however, EVERY nonzero return — interruption or any other failure — is
retried, and the sleep loop ends exactly when a call returns 0 (it has no
fatal path). -/
theorem c9_wait_fatal_sleep_retries (n : Nat) (st : Int) (calls : List WaitCall)
    (errs : List Nat) (rest : List Nat) (herrs : ∀ e ∈ errs, e ≠ 0) :
    wait_retry (List.replicate n (.fail true) ++ .ok st :: calls) = some (.got st)
    ∧ wait_retry (.fail false :: calls) = some .fatal
    ∧ sleep_retry (errs ++ 0 :: rest) = some () := by
  refine ⟨?_, rfl, ?_⟩
  · induction n with
    | zero => rfl
    | succ m ih => simpa [List.replicate_succ, wait_retry] using ih
  · induction errs with
    | nil => rfl
    | cons e es ih =>
      have he : e ≠ 0 := herrs e (by simp)
      have htail : ∀ x ∈ es, x ≠ 0 := fun x hx => herrs x (List.mem_cons_of_mem e hx)
      cases e with
      | zero => exact absurd rfl he
      | succ m => simpa [sleep_retry] using ih htail

/-- Witness for `c9_wait_fatal_sleep_retries`: two EINTR failures before a
status; a fatal non-EINTR wait failure; a sleep that returns EINTR then
EINVAL before succeeding. -/
theorem c9_wait_fatal_sleep_retries_witness :
    wait_retry (List.replicate 2 (.fail true) ++ .ok 0 :: []) = some (.got 0)
    ∧ wait_retry (.fail false :: []) = some .fatal
    ∧ sleep_retry ([4, 22] ++ 0 :: []) = some () :=
  c9_wait_fatal_sleep_retries 2 0 [] [4, 22] [] (by decide)

end RepeatTool

namespace RepeatTool

/-- Associativity of string concatenation. -/
theorem string_append_assoc (x y z : String) : x ++ y ++ z = x ++ (y ++ z) := by
  apply String.ext
  simp [String.data_append]

/-- Splitting a concatenation off the head token of the spec-side join. -/
theorem spec_joined_head_append (t : List String) (x y : String) :
    spec_joined ((x ++ y) :: t) = x ++ spec_joined (y :: t) := by
  cases t with
  | nil => rfl
  | cons c u => simp [spec_joined, string_append_assoc]

/-- The buffer-building join of repeat.c lines 154-174 produces exactly the
space-separated concatenation described by the spec. -/
theorem join_command_eq_spec_joined (a : String) (t : List String) :
    join_command (a :: t) = spec_joined (a :: t) := by
  show t.foldl (fun acc s => acc ++ " " ++ s) a = spec_joined (a :: t)
  induction t generalizing a with
  | nil => rfl
  | cons b u ih =>
    show u.foldl (fun acc s => acc ++ " " ++ s) (a ++ " " ++ b) = _
    rw [ih (a ++ " " ++ b)]
    rw [show a ++ " " ++ b = (a ++ " ") ++ b from rfl,
        spec_joined_head_append u (a ++ " ") b]
    cases u with
    | nil => rfl
    | cons c v => simp [spec_joined, string_append_assoc]

/-- C8: whenever `parse_arguments` resolves a runnable configuration in
shell-launch mode (`use_exec` false, i.e. the `-x` flag absent), the
produced command string is exactly the trailing non-option tokens joined
in order with single ASCII spaces — no escaping or quoting of any token. -/
theorem c8_shell_command_is_space_join (argv : List String) (st : St)
    (cmd : Option String) (args : List String)
    (h : parse_arguments argv = .run st cmd args) (hx : st.use_exec = false) :
    cmd = some (spec_joined args) := by
  unfold parse_arguments at h
  cases hg : gopt_loop initSt argv with
  | inl e => rw [hg] at h; simp [finish_parse] at h
  | inr p =>
    obtain ⟨st2, rem⟩ := p
    rw [hg] at h
    cases rem with
    | nil => simp [finish_parse] at h
    | cons a rest =>
      simp only [finish_parse, ParseResult.run.injEq] at h
      obtain ⟨hst, hcmd, hargs⟩ := h
      subst hst
      rw [hx] at hcmd
      simp only [Bool.false_eq_true, if_false] at hcmd
      rw [← hcmd, ← hargs]
      exact congrArg some (join_command_eq_spec_joined a rest)

/-- Witness for `c8_shell_command_is_space_join`: tokens with embedded
shell metacharacters are joined verbatim. -/
theorem c8_shell_command_is_space_join_witness :
    (some "echo a;b $X" : Option String) = some (spec_joined ["echo", "a;b", "$X"]) :=
  c8_shell_command_is_space_join ["echo", "a;b", "$X"] initSt
    (some "echo a;b $X") ["echo", "a;b", "$X"] (by rfl) (by rfl)

end RepeatTool

namespace RepeatTool

/-- Reduction of the option loop on a short-option token `-c…` whose first
option character is not `-`. -/
theorem gopt_loop_short (st : St) (c : Char) (cs : List Char) (rest : List String)
    (hc : c ≠ '-') :
    gopt_loop st (String.mk ('-' :: c :: cs) :: rest)
      = match proc_cluster st rest.head? (c :: cs) with
        | Sum.inl e => Sum.inl e
        | Sum.inr (st2, false) => gopt_loop st2 rest
        | Sum.inr (st2, true) =>
          match rest with
          | [] => Sum.inr (st2, [])
          | _ :: rest2 => gopt_loop st2 rest2 := by
  rw [gopt_loop]
  rw [show (String.mk ('-' :: c :: cs)).data = '-' :: c :: cs from rfl]
  split
  · rename_i h
    injection h with h1 h2
    injection h2 with h3 h4
    exact absurd h3 hc
  · rename_i h
    injection h with h1 h2
    injection h2 with h3 h4
    exact absurd h3 hc
  · rename_i h
    injection h with h1 h2
    injection h2 with h3 h4
    subst h3
    subst h4
    rfl
  · rename_i h
    exact absurd rfl (h c cs)

/-- A short option character outside the optstring `"t:i:ezdhpVx"` (and not
a long-option lead `-`) makes getopt report an invalid option and yield
`'?'`, which `parse_arguments` maps to `return 1;` — exit-now with
`*return_val` left at 0 and no usage text. -/
theorem unrecognized_short_flag (st : St) (c : Char) (more : List String)
    (h1 : c ≠ '-') (h2 : c ≠ 't') (h3 : c ≠ 'i') (h4 : c ≠ 'p') (h5 : c ≠ 'e')
    (h6 : c ≠ 'x') (h7 : c ≠ 'd') (h8 : c ≠ 'z') (h9 : c ≠ 'V') (h10 : c ≠ 'h') :
    gopt_loop st (String.mk ['-', c] :: more) = Sum.inl ⟨0, [.getoptErr], st.out⟩ := by
  rw [gopt_loop_short st c [] more h1]
  simp [proc_cluster, h2, h3, h4, h5, h6, h7, h8, h9, h10]

/-- Counterexample to C7: the repeat-count argument `123abc` carries
trailing garbage after the digits, yet `parse_arguments` accepts it (the
check at repeat.c line 86 only rejects `endp == optarg`, i.e. no leading
integer at all), stores 123, reports no error, and resolves a runnable
configuration — the command IS invoked. -/
theorem c7_trailing_garbage_accepted_counterexample :
    parse_arguments ["-t", "123abc", "echo"]
        = .run { initSt with times := 123 } (some "echo") ["echo"]
    ∧ ∀ rv errs outs, parse_arguments ["-t", "123abc", "echo"] ≠ .exitNow rv errs outs := by
  constructor
  · rfl
  · intro rv errs outs h
    rw [show parse_arguments ["-t", "123abc", "echo"]
          = .run { initSt with times := 123 } (some "echo") ["echo"] from rfl] at h
    exact ParseResult.noConfusion h

/-- C7 as amended: the repeat-count argument must merely START with a
parsable integer — an argument from which `strtol` consumes nothing (such
as `abc`) is a parse error producing usage text on stderr and exit status
1 with no command invoked, while an argument with trailing garbage after
the digits is accepted, the leading integer is stored as the repeat count,
the garbage is ignored, and parsing continues. -/
theorem c7_times_leading_integer (s : String) (more : List String) :
    (strtol10 s.data = none →
      parse_arguments ("-t" :: s :: more) = .exitNow 1 [.usage] [])
    ∧ (∀ v junk, strtol10 s.data = some (v, junk) →
      parse_arguments ("-t" :: s :: more)
        = finish_parse (gopt_loop { initSt with times := v } more)) := by
  constructor
  · intro h
    simp [parse_arguments, gopt_loop, proc_cluster, opt_times, h, finish_parse, initSt]
  · intro v junk h
    simp [parse_arguments, gopt_loop, proc_cluster, opt_times, h, initSt]

/-- Witness for `c7_times_leading_integer`: `abc` is rejected with usage
text and status 1; `123abc` is accepted with repeat count 123. -/
theorem c7_times_leading_integer_witness :
    parse_arguments ["-t", "abc", "echo"] = .exitNow 1 [.usage] []
    ∧ parse_arguments ["-t", "123abc", "echo"]
        = finish_parse (gopt_loop { initSt with times := 123 } ["echo"]) :=
  ⟨(c7_times_leading_integer "abc" ["echo"]).1 (by rfl),
   (c7_times_leading_integer "123abc" ["echo"]).2 123 ['a', 'b', 'c'] (by rfl)⟩

/-- Counterexample to C6: on the unrecognized option flag `-q` the program
exits with status 0 (not 1) and prints no usage text (only getopt's own
invalid-option diagnostic): `case '?': return 1;` at repeat.c line 83
returns `true` from a `bool` function while leaving `*return_val` at 0. -/
theorem c6_unrecognized_flag_exits_zero_counterexample :
    parse_arguments ["-q", "echo"] = .exitNow 0 [.getoptErr] []
    ∧ (0 : Nat) ≠ 1
    ∧ Msg.usage ∉ [Msg.getoptErr] := by decide

/-- C6 as amended: parse errors never invoke the command but split into —
(a) a times argument with no leading integer: usage to stderr, exit 1;
(b) an interval argument with no leading number: usage to stderr, exit 1;
(c) an interval argument with an unrecognized unit suffix: a specific
"Bad unit" diagnostic (not usage text) to stderr, exit 1;
(d)/(e) a missing command: usage text to stderr, exit 1;
(f) an unrecognized option flag: exit status 0 (not 1), with only getopt's
invalid-option diagnostic and no usage text. -/
theorem c6_parse_error_paths (s : String) (more : List String) (c : Char)
    (q : ℚ) (rest : List Char) :
    (strtol10 s.data = none →
      parse_arguments ("-t" :: s :: more) = .exitNow 1 [.usage] [])
    ∧ (strtofQ s.data = none →
      parse_arguments ("-i" :: s :: more) = .exitNow 1 [.usage] [])
    ∧ (strtofQ s.data = some (q, rest) → scale_unit q rest = none →
      parse_arguments ("-i" :: s :: more) = .exitNow 1 [.badUnit] [])
    ∧ parse_arguments [] = .exitNow 1 [.usageRaw] []
    ∧ parse_arguments ["-p"] = .exitNow 1 [.usageRaw] []
    ∧ (c ≠ '-' → c ≠ 't' → c ≠ 'i' → c ≠ 'p' → c ≠ 'e' → c ≠ 'x' → c ≠ 'd' →
        c ≠ 'z' → c ≠ 'V' → c ≠ 'h' →
      parse_arguments (String.mk ['-', c] :: more) = .exitNow 0 [.getoptErr] []) := by
  refine ⟨?_, ?_, ?_, rfl, rfl, ?_⟩
  · intro h
    simp [parse_arguments, gopt_loop, proc_cluster, opt_times, h, finish_parse, initSt]
  · intro h
    simp [parse_arguments, gopt_loop, proc_cluster, opt_interval, h, finish_parse, initSt]
  · intro h h2
    simp [parse_arguments, gopt_loop, proc_cluster, opt_interval, h, h2, finish_parse, initSt]
  · intro h1 h2 h3 h4 h5 h6 h7 h8 h9 h10
    rw [parse_arguments, unrecognized_short_flag initSt c more h1 h2 h3 h4 h5 h6 h7 h8 h9 h10]
    rfl

/-- Witness for `c6_parse_error_paths`, one instantiation per error path:
`-t abc`, `-i q`, `-i 5q`, no arguments, options only, and the
unrecognized flag `-w`. -/
theorem c6_parse_error_paths_witness :
    parse_arguments ["-t", "abc", "echo"] = .exitNow 1 [.usage] []
    ∧ parse_arguments ["-i", "q", "echo"] = .exitNow 1 [.usage] []
    ∧ parse_arguments ["-i", "5q", "echo"] = .exitNow 1 [.badUnit] []
    ∧ parse_arguments [] = .exitNow 1 [.usageRaw] []
    ∧ parse_arguments ["-p"] = .exitNow 1 [.usageRaw] []
    ∧ parse_arguments [String.mk ['-', 'w'], "echo"] = .exitNow 0 [.getoptErr] [] :=
  ⟨(c6_parse_error_paths "abc" ["echo"] 'w' 5 ['q']).1 (by rfl),
   (c6_parse_error_paths "q" ["echo"] 'w' 5 ['q']).2.1 (by rfl),
   (c6_parse_error_paths "5q" ["echo"] 'w' 5 ['q']).2.2.1
     (by simp [strtofQ, signSplit, fracSplit, expSplit, digitsToNat, isSpaceC]) (by rfl),
   (c6_parse_error_paths "5q" ["echo"] 'w' 5 ['q']).2.2.2.1,
   (c6_parse_error_paths "5q" ["echo"] 'w' 5 ['q']).2.2.2.2.1,
   (c6_parse_error_paths "5q" ["echo"] 'w' 5 ['q']).2.2.2.2.2 (by decide) (by decide)
     (by decide) (by decide) (by decide) (by decide) (by decide) (by decide)
     (by decide) (by decide)⟩

end RepeatTool
